import Mathlib

/-!
Verification of the fireflies transcript exporter (src/download_transcript.py)
against its specification.

The script decodes a GraphQL JSON response and renders it to text. We embed
the decoded JSON tree as the inductive type `Json`, Python's truthiness,
`dict.get`, `str.strip`, `==` and f-string `str()` conversions as functions
on it, and Python float arithmetic (`//`, `%`, `int()`, `/`) as exact
rational arithmetic on `ℚ`.

Python rational/float operations are written with `Rat.divInt` (the one
rational division that is kernel-reducible) so that concrete runs of the
embedded code can be checked by `decide`; the lemmas `pyDiv_eq`, `ratMul_eq`,
`ratSub_eq` identify them with the ordinary field operations.

Scope notes, stated once here:
  * Python attribute errors on ill-typed trees (for example calling `.get` on
    a string) are not modelled; the well-formedness predicates `WFSentence`,
    `WFSummary`, `WFTranscript`, `WFResponse` carve out exactly the trees that
    are well-typed per the spec's data model, and the general theorems range
    over those.
  * `datetime.fromtimestamp(...).strftime(...)` renders a local-time date
    string; local time is outside a pure embedding, so the formatter is
    parametric in a date-rendering function `dr : ℚ → String`, applied to
    `date/1000` exactly where the source applies the datetime conversion.
  * `pyStr` (Python `str()`) is exact on the values reachable from well-typed
    trees: strings, None, booleans, integers. The Python repr of containers
    and of non-integral floats is not modelled; no claim reaches them.
-/

/-! ## Python string and character semantics -/

/-- Whitespace as Python `str.strip` sees it, restricted to ASCII:
space, tab, newline, carriage return, vertical tab, form feed. -/
def pyIsSpace (c : Char) : Bool :=
  c == ' ' || c == '\t' || c == '\n' || c == '\r' || c == '\x0b' || c == '\x0c'

/-- Drop leading and trailing Python whitespace from a character list. -/
def pyStripChars (l : List Char) : List Char :=
  ((l.dropWhile pyIsSpace).reverse.dropWhile pyIsSpace).reverse

/-- Python `str.strip()` (ASCII whitespace). -/
def pyStrip (s : String) : String :=
  String.mk (pyStripChars s.data)

/-- A word character of the regex class `\w`, restricted to ASCII:
letters, digits, underscore. -/
def pyWordChar (c : Char) : Bool :=
  c.isAlphanum || c == '_'

/-! ## Python numeric semantics over ℚ

All operations are phrased with `Rat.divInt` so they kernel-reduce;
`Rat.add/sub/mul/inv` are `@[irreducible]` and would block `decide`. -/

/-- Rational multiplication, kernel-reducible (`ratMul_eq : ratMul a b = a * b`). -/
def ratMul (a b : ℚ) : ℚ :=
  Rat.divInt (a.num * b.num) ((a.den : ℤ) * (b.den : ℤ))

/-- Rational subtraction, kernel-reducible (`ratSub_eq : ratSub a b = a - b`). -/
def ratSub (a b : ℚ) : ℚ :=
  Rat.divInt (a.num * (b.den : ℤ) - b.num * (a.den : ℤ)) ((a.den : ℤ) * (b.den : ℤ))

/-- Python float division `a / b`, kernel-reducible (`pyDiv_eq : pyDiv a b = a / b`). -/
def pyDiv (a b : ℚ) : ℚ :=
  Rat.divInt (a.num * (b.den : ℤ)) ((a.den : ℤ) * b.num)

/-- Python float floor division `a // b`: the floor, returned as a float. -/
def pyFloorDiv (a b : ℚ) : ℚ :=
  ((Rat.floor (pyDiv a b) : ℤ) : ℚ)

/-- Python float modulo `a % b = a - b * (a // b)`. -/
def pyMod (a b : ℚ) : ℚ :=
  ratSub a (ratMul b (pyFloorDiv a b))

/-- Python `int()` on a float value: truncation toward zero. -/
def pyInt (q : ℚ) : ℤ :=
  q.num.tdiv (q.den : ℤ)

/-- Python `f"{n:02d}"`: decimal rendering left-padded with `0` to width 2. -/
def pad2 (n : ℤ) : String :=
  if 0 ≤ n ∧ n < 10 then "0" ++ toString n else toString n

/-! ## The decoded JSON tree and Python operations on it -/

/-- A decoded JSON value, as `response.json()` hands it to the script. -/
inductive Json where
  | null : Json
  | bool : Bool → Json
  | num : ℚ → Json
  | str : String → Json
  | arr : List Json → Json
  | obj : List (String × Json) → Json

/-- First binding of a key in a decoded JSON object (Python dict keys are
unique, so first binding is the binding). -/
def lookupPairs : List (String × Json) → String → Option Json
  | [], _ => none
  | (k2, v) :: rest, k => if k2 == k then some v else lookupPairs rest k

/-- Python `d.get(k)` without default: the value when `j` is an object
holding `k`, otherwise `none` (Python `None`). -/
def Json.get? : Json → String → Option Json
  | .obj kvs, k => lookupPairs kvs k
  | _, _ => none

/-- Python `d.get(k, default)`. -/
def Json.getD (j : Json) (k : String) (d : Json) : Json :=
  (j.get? k).getD d

/-- Python `k in d` on a dict. -/
def Json.hasKey (j : Json) (k : String) : Bool :=
  (j.get? k).isSome

/-- Python truthiness of a decoded JSON value: `None`, `False`, zero, and
empty strings/lists/dicts are falsy. -/
def Json.truthy : Json → Bool
  | .null => false
  | .bool b => b
  | .num q => q != 0
  | .str s => s != ""
  | .arr xs => !xs.isEmpty
  | .obj kvs => !kvs.isEmpty

mutual

/-- Python structural equality `==` on decoded JSON values. (Python's
cross-type equalities such as `True == 1` are not modelled; no claim
compares a boolean with a number.) -/
def Json.beq : Json → Json → Bool
  | .null, .null => true
  | .bool a, .bool b => a == b
  | .num a, .num b => a == b
  | .str a, .str b => a == b
  | .arr as, .arr bs => Json.beqList as bs
  | .obj as, .obj bs => Json.beqPairs as bs
  | _, _ => false

/-- Elementwise `Json.beq` on lists. -/
def Json.beqList : List Json → List Json → Bool
  | [], [] => true
  | a :: as, b :: bs => Json.beq a b && Json.beqList as bs
  | _, _ => false

/-- Pairwise `Json.beq` on object bindings. -/
def Json.beqPairs : List (String × Json) → List (String × Json) → Bool
  | [], [] => true
  | (k, v) :: as, (k2, v2) :: bs => k == k2 && Json.beq v v2 && Json.beqPairs as bs
  | _, _ => false

end

/-- Is this value a JSON string? -/
def Json.isStr : Json → Bool
  | .str _ => true
  | _ => false

/-- Is this value a JSON number? -/
def Json.isNum : Json → Bool
  | .num _ => true
  | _ => false

/-- Is this value JSON null? -/
def Json.isNull : Json → Bool
  | .null => true
  | _ => false

/-- Is this value a JSON object? -/
def Json.isObj : Json → Bool
  | .obj _ => true
  | _ => false

/-- Is this value a JSON array of strings? -/
def Json.isStrArr : Json → Bool
  | .arr xs => xs.all Json.isStr
  | _ => false

/-- The numeric value a Python arithmetic context reads off a decoded JSON
value (booleans are ints in Python; other cases are unreachable from the
well-typed trees the claims range over). -/
def Json.toRat : Json → ℚ
  | .num q => q
  | .bool b => if b then 1 else 0
  | _ => 0

/-- Python `str()` of a decoded JSON value, as the script's f-strings apply
it. Exact on strings, None, booleans and integer-valued numbers — all a
well-typed tree reaches; container repr is not modelled (see header note). -/
def pyStr : Json → String
  | .str s => s
  | .null => "None"
  | .bool true => "True"
  | .bool false => "False"
  | .num q => toString q.num
  | .arr _ => "<list>"
  | .obj _ => "<dict>"

/-- Remove every binding of key `k` from an object (identity elsewhere). -/
def Json.eraseKey (j : Json) (k : String) : Json :=
  match j with
  | .obj kvs => .obj (kvs.filter (fun p => p.1 != k))
  | v => v

/-! ## TranscriptFormatter (src/download_transcript.py lines 71-170) -/

namespace TranscriptFormatter

/-- The 80-character `=` rule line. -/
def headerRule : String :=
  String.mk (List.replicate 80 '=')

/-- `format_timestamp` (lines 72-76):
`minutes = int(seconds // 60); secs = int(seconds % 60)`,
rendered `[{minutes:02d}:{secs:02d}]`. -/
def format_timestamp (seconds : ℚ) : String :=
  let minutes := pyInt (pyFloorDiv seconds 60)
  let secs := pyInt (pyMod seconds 60)
  "[" ++ pad2 minutes ++ ":" ++ pad2 secs ++ "]"

/-- `format_duration` (lines 78-87):
`hours = int(seconds // 3600); minutes = int((seconds % 3600) // 60);
secs = int(seconds % 60)`, rendered `"Nh Mm Ss"` / `"Mm Ss"` / `"Ss"`. -/
def format_duration (seconds : ℚ) : String :=
  let hours := pyInt (pyFloorDiv seconds 3600)
  let minutes := pyInt (pyFloorDiv (pyMod seconds 3600) 60)
  let secs := pyInt (pyMod seconds 60)
  if 0 < hours then
    toString hours ++ "h " ++ toString minutes ++ "m " ++ toString secs ++ "s"
  else if 0 < minutes then
    toString minutes ++ "m " ++ toString secs ++ "s"
  else
    toString secs ++ "s"

/-- `', '.join(participants)` on a well-typed participants list. -/
def joinComma : Json → String
  | .arr xs => String.intercalate ", " (xs.map pyStr)
  | v => pyStr v

/-- `_add_header` (lines 101-119), parametric in the date renderer `dr`
(applied to `date_ts / 1000` exactly where the source converts to a local
datetime string). -/
def add_header (dr : ℚ → String) (t : Json) : List String :=
  [headerRule,
   "TITLE: " ++ pyStr (t.getD "title" (.str "N/A")),
   "ID: " ++ pyStr (t.getD "id" (.str "N/A")),
   "DURATION: " ++ format_duration (Json.toRat (t.getD "duration" (.num 0)))]
  ++ (if (t.getD "date" .null).truthy then
        ["DATE: " ++ dr (pyDiv (Json.toRat (t.getD "date" .null)) 1000)]
      else [])
  ++ (if (t.getD "participants" (.arr [])).truthy then
        ["PARTICIPANTS: " ++ joinComma (t.getD "participants" (.arr []))]
      else [])
  ++ [headerRule, ""]

/-- The overview segment of `_add_summary` (lines 125-128). -/
def overviewSeg (sm : Json) : List String :=
  if (sm.getD "overview" .null).truthy then
    ["--- SUMMARY ---", pyStr (sm.getD "overview" .null), ""]
  else []

/-- The keywords segment of `_add_summary` (lines 130-137). -/
def keywordsSeg (sm : Json) : List String :=
  if (sm.getD "keywords" .null).truthy then
    ["--- KEYWORDS ---",
     (match sm.getD "keywords" .null with
      | .arr xs => String.intercalate ", " (xs.map pyStr)
      | v => pyStr v),
     ""]
  else []

/-- The action-items segment of `_add_summary` (lines 139-147): header line,
then the stripped string on one line if the value is a string, else one
`  - ` line per element (a dict would iterate its keys), then a blank. -/
def actionSeg (sm : Json) : List String :=
  if (sm.getD "action_items" .null).truthy then
    ["--- ACTION ITEMS ---"]
    ++ (match sm.getD "action_items" .null with
        | .str s => [pyStrip s]
        | .arr xs => xs.map (fun it => "  - " ++ pyStr it)
        | .obj kvs => kvs.map (fun kv => "  - " ++ kv.1)
        | _ => [])
    ++ [""]
  else []

/-- `_add_summary` (lines 121-147): nothing for a falsy summary, else the
three segments in source order. -/
def add_summary (sm : Json) : List String :=
  if sm.truthy then overviewSeg sm ++ keywordsSeg sm ++ actionSeg sm else []

/-- The effective speaker value of one sentence (line 160):
`sentence.get("speaker_name") or sentence.get("speaker_id", "Unknown")` —
Python `or` yields the left operand when truthy, else the right one. -/
def effSpeaker (s : Json) : Json :=
  if (s.getD "speaker_name" .null).truthy then s.getD "speaker_name" .null
  else s.getD "speaker_id" (.str "Unknown")

/-- One rendered sentence line (lines 169-170): `f"{timestamp} {text}"`. -/
def sentenceLine (s : Json) : String :=
  format_timestamp (Json.toRat (s.getD "start_time" (.num 0)))
    ++ " " ++ pyStr (s.getD "text" (.str ""))

/-- The loop body of `_add_sentences` (lines 158-170): `cur` is the running
`current_speaker` (initially Python `None`, i.e. JSON null); a blank line and
a `--- <speaker> ---` header are emitted whenever the sentence's speaker
value differs from `cur`, and `current_speaker` is then updated to it. -/
def sentencesLoop : Json → List Json → List String
  | _, [] => []
  | cur, s :: rest =>
    if Json.beq (effSpeaker s) cur then
      sentenceLine s :: sentencesLoop cur rest
    else
      "" :: ("--- " ++ pyStr (effSpeaker s) ++ " ---") :: sentenceLine s
        :: sentencesLoop (effSpeaker s) rest

/-- `_add_sentences` (lines 149-170): nothing for a falsy sentences value,
else the transcript-block prelude and the sentence stream. -/
def add_sentences (v : Json) : List String :=
  match v with
  | .arr (s :: ss) => [headerRule, "FULL TRANSCRIPT", headerRule, ""]
      ++ sentencesLoop .null (s :: ss)
  | _ => []

/-- `data.get("data", {}).get("transcript")` (line 90), with Python `None`
for an absent key. -/
def transcriptOf (j : Json) : Json :=
  (j.getD "data" (.obj [])).getD "transcript" .null

/-- `format` (lines 89-99): the one validity check is truthiness of
`data.transcript`; on success the three blocks joined by newlines. -/
def format (dr : ℚ → String) (j : Json) : Except String String :=
  if (transcriptOf j).truthy then
    .ok (String.intercalate "\n"
      (add_header dr (transcriptOf j)
       ++ add_summary ((transcriptOf j).getD "summary" (.obj []))
       ++ add_sentences ((transcriptOf j).getD "sentences" (.arr []))))
  else
    .error "Transcript not found in response"

end TranscriptFormatter

/-! ## FirefliesClient (src/download_transcript.py lines 45-68) -/

/-- The failures `get_transcript` can raise after the POST returns. -/
inductive FetchError where
  | http (status : Nat)
  | graphQL (errors : Json)

/-- `FirefliesClient.get_transcript` (lines 56-68) from the response on:
`raise_for_status()` raises for a 4xx/5xx status; then a decoded body with a
top-level `errors` key raises a GraphQL error carrying that value; otherwise
the decoded body is returned unmodified. -/
def get_transcript (status : Nat) (body : Json) : Except FetchError Json :=
  if 400 ≤ status then .error (.http status)
  else if body.hasKey "errors" then .error (.graphQL (body.getD "errors" .null))
  else .ok body

/-! ## extract_transcript_id (lines 173-178) -/

/-- A character of the regex class `[A-Z0-9]`. -/
def idChar (c : Char) : Bool :=
  ('A' ≤ c && c ≤ 'Z') || ('0' ≤ c && c ≤ '9')

/-- `re.search("([A-Z0-9]{26})", ...)`: scan positions left to right and
return the first window of 26 consecutive id characters. -/
def findRun26 : List Char → Option (List Char)
  | [] => none
  | c :: rest =>
    if 26 ≤ (c :: rest).length && ((c :: rest).take 26).all idChar then
      some ((c :: rest).take 26)
    else
      findRun26 rest

/-- `extract_transcript_id` (lines 173-178): the matched window when the
pattern matches, else the raw input unchanged. -/
def extract_transcript_id (s : String) : String :=
  match findRun26 s.data with
  | some cs => String.mk cs
  | none => s

/-! ## Output file naming (main, lines 222-224) -/

/-- The character class kept by `re.sub(r"[^\w\s-]", "", title)`. -/
def keepChar (c : Char) : Bool :=
  pyWordChar c || pyIsSpace c || c == '-'

/-- `re.sub(r"[^\w\s-]", "", title).strip().replace(" ", "_")[:50]`
(line 223). Note `.replace(" ", "_")` substitutes the space character only. -/
def sanitize_title (title : String) : String :=
  String.mk (((pyStripChars (title.data.filter keepChar)).map
    (fun c => if c == ' ' then '_' else c)).take 50)

/-- `f"{safe_title}_{transcript_id}"` (line 224). -/
def base_filename (title tid : String) : String :=
  sanitize_title title ++ "_" ++ tid

/-- `f"{base_filename}.json"` (line 227): the JSON output file's name. -/
def json_filename (title tid : String) : String :=
  base_filename title tid ++ ".json"

/-- `f"{base_filename}.txt"` (line 234): the text output file's name. -/
def txt_filename (title tid : String) : String :=
  base_filename title tid ++ ".txt"

/-! ## Well-typed response trees (the spec's data model, section 3) -/

/-- The field `k`, when present, satisfies `p`. -/
def optFieldIs (j : Json) (k : String) (p : Json → Bool) : Bool :=
  match j.get? k with
  | none => true
  | some v => p v

/-- A well-typed sentence object: `text` a string, `speaker_name` a string
or null, `speaker_id` a string, `start_time` a number — each when present. -/
def WFSentence (s : Json) : Bool :=
  s.isObj
  && optFieldIs s "text" Json.isStr
  && optFieldIs s "speaker_name" (fun v => v.isStr || v.isNull)
  && optFieldIs s "speaker_id" Json.isStr
  && optFieldIs s "start_time" Json.isNum

/-- A well-typed summary value as `_add_summary` receives it: falsy values
are skipped outright; a truthy one must be an object whose `overview` is a
string or null and whose `keywords`/`action_items` are strings, string
lists or null — each when present. -/
def WFSummary (sm : Json) : Bool :=
  !sm.truthy
  || (sm.isObj
      && optFieldIs sm "overview" (fun v => v.isStr || v.isNull)
      && optFieldIs sm "keywords" (fun v => v.isStr || v.isStrArr || v.isNull)
      && optFieldIs sm "action_items" (fun v => v.isStr || v.isStrArr || v.isNull))

/-- A well-typed sentences value: falsy (skipped) or a list of well-typed
sentence objects. -/
def WFSentences (v : Json) : Bool :=
  !v.truthy
  || (match v with
      | .arr xs => xs.all WFSentence
      | _ => false)

/-- A well-typed transcript object per the spec's data model. -/
def WFTranscript (t : Json) : Bool :=
  t.isObj
  && optFieldIs t "title" Json.isStr
  && optFieldIs t "id" Json.isStr
  && optFieldIs t "duration" Json.isNum
  && optFieldIs t "date" (fun v => v.isNum || v.isNull)
  && optFieldIs t "participants" (fun v => v.isStrArr || v.isNull)
  && WFSummary (t.getD "summary" (.obj []))
  && WFSentences (t.getD "sentences" (.arr []))

/-- A well-typed response tree: an object whose `data` field (when present)
is an object, and whose `data.transcript`, when truthy, is a well-typed
transcript. -/
def WFResponse (j : Json) : Bool :=
  j.isObj
  && (j.getD "data" (.obj [])).isObj
  && (let t := TranscriptFormatter.transcriptOf j
      !t.truthy || WFTranscript t)

/-! ## Spec-side definitions: the claims' language, written from the spec -/

/-- Rendering of a nonnegative whole-second duration per the spec: hours,
minutes, seconds by truncation; `"Nh Mm Ss"` when hours are positive,
`"Mm Ss"` when only minutes are, else `"Ss"`. -/
def durationSpec (n : ℕ) : String :=
  let h := n / 3600
  let m := n % 3600 / 60
  let s := n % 60
  if 0 < h then toString h ++ "h " ++ toString m ++ "m " ++ toString s ++ "s"
  else if 0 < m then toString m ++ "m " ++ toString s ++ "s"
  else toString s ++ "s"

/-- Two-digit zero padding of a natural number. -/
def pad2Nat (k : ℕ) : String :=
  if k < 10 then "0" ++ toString k else toString k

/-- Per-sentence timestamp per the spec: `[MM:SS]` from the truncated
start time, `MM = floor(t)/60` unbounded (no hour component, no wrapping),
`SS = floor(t) mod 60`, both zero-padded to two digits. -/
def timestampSpec (n : ℕ) : String :=
  "[" ++ pad2Nat (n / 60) ++ ":" ++ pad2Nat (n % 60) ++ "]"

/-- The effective speaker as a display string: what the speaker header
prints and the grouping compares. -/
def effSpeakerName (s : Json) : String :=
  pyStr (TranscriptFormatter.effSpeaker s)

/-- The previous effective speaker as the loop's `current_speaker` value. -/
def optJson : Option String → Json
  | none => .null
  | some nm => .str nm

/-- The sentence stream per the spec's words: a blank line and a
`--- <speaker> ---` header exactly when the effective speaker differs from
the immediately preceding sentence's (`prev`), counting the very first
sentence (`prev = none`) as differing. -/
def sentenceStreamSpec : Option String → List Json → List String
  | _, [] => []
  | prev, s :: rest =>
    (if some (effSpeakerName s) = prev then [TranscriptFormatter.sentenceLine s]
     else ["", "--- " ++ effSpeakerName s ++ " ---", TranscriptFormatter.sentenceLine s])
    ++ sentenceStreamSpec (some (effSpeakerName s)) rest

/-- Recognizes a speaker-header line `--- <speaker> ---`. -/
def isSpeakerHeader (l : String) : Bool :=
  l.data.take 4 == "--- ".data && l.data.reverse.take 4 == " ---".data.reverse

/-- Every speaker-header line in `lines` is preceded by a blank line. -/
def blanksBeforeHeaders (lines : List String) : Bool :=
  (List.range lines.length).all fun i =>
    !(isSpeakerHeader (lines.getD i "")) || (i != 0 && lines.getD (i - 1) "" == "")

/-- The field `k` as a string, when present with a string value. -/
def strField (s : Json) (k : String) : Option String :=
  match s.get? k with
  | some (.str v) => some v
  | _ => none

/-- C3's claimed fallback: `speaker_id` when present and non-empty, else the
literal `"Unknown"`. -/
def idOrUnknownClaim (s : Json) : String :=
  match strField s "speaker_id" with
  | some i => if i == "" then "Unknown" else i
  | none => "Unknown"

/-- The effective speaker exactly as claim C3 words it: `speaker_name` when
present and non-empty, otherwise `speaker_id` when present and non-empty,
otherwise `"Unknown"`. -/
def effSpeakerClaimC3 (s : Json) : String :=
  match strField s "speaker_name" with
  | some n => if n == "" then idOrUnknownClaim s else n
  | none => idOrUnknownClaim s

/-- The amended fallback: `speaker_id`'s displayed value whenever the field
is present (an empty string stays empty), `"Unknown"` only when absent. -/
def idOrUnknownAmended (s : Json) : String :=
  match s.get? "speaker_id" with
  | some v => pyStr v
  | none => "Unknown"

/-- The amended effective speaker: `speaker_name` when present and
non-empty, else `speaker_id`'s value whenever that field is present, else
`"Unknown"`. -/
def effSpeakerAmended (s : Json) : String :=
  match strField s "speaker_name" with
  | some n => if n == "" then idOrUnknownAmended s else n
  | none => idOrUnknownAmended s

/-- The action-items block per the spec: the `--- ACTION ITEMS ---` line;
a string value trimmed on one line with no `  - ` prefix; a sequence value
as one `  - ` line per element; then a blank line. -/
def actionItemsSpec (v : Json) : List String :=
  ["--- ACTION ITEMS ---"]
  ++ (match v with
      | .str s => [pyStrip s]
      | .arr xs => xs.map (fun it => "  - " ++ pyStr it)
      | _ => [])
  ++ [""]

/-- A window of 26 consecutive id characters starts at position `i`. -/
def hasWindowAt (l : List Char) (i : ℕ) : Bool :=
  26 ≤ (l.drop i).length && ((l.drop i).take 26).all idChar

/-- One pass collecting maximal runs of id characters; `acc` holds the
current run reversed. -/
def runsAux : List Char → List Char → List (List Char)
  | [], acc => if acc.isEmpty then [] else [acc.reverse]
  | c :: rest, acc =>
    if idChar c then runsAux rest (c :: acc)
    else if acc.isEmpty then runsAux rest [] else acc.reverse :: runsAux rest []

/-- The maximal runs of consecutive id characters in a string, in order. -/
def maximalRuns (l : List Char) : List (List Char) :=
  runsAux l []

/-- Claim C7's reading of identifier extraction: the first maximal run
whose length is exactly 26, else the input unchanged. -/
def extractClaimC7 (s : String) : String :=
  match (maximalRuns s.data).filter (fun r => r.length == 26) with
  | r :: _ => String.mk r
  | [] => s

/-- Claim C9's sanitization: like the code's, but replacing every internal
whitespace character (not just spaces) with an underscore. -/
def sanitizeClaimC9 (t : String) : String :=
  String.mk (((pyStripChars (t.data.filter keepChar)).map
    (fun c => if pyIsSpace c then '_' else c)).take 50)

/-- The amended sanitization: strip characters outside word
characters/whitespace/hyphen, trim, replace each space character (U+0020
only) with an underscore, truncate to 50 characters. -/
def sanitizeAmendedC9 (t : String) : String :=
  String.mk (((pyStripChars (t.data.filter keepChar)).map
    (fun c => if c == ' ' then '_' else c)).take 50)

/-! ## Concrete demonstration inputs -/

/-- A date renderer for concrete runs (its value never matters: the claims
never inspect the rendered date text). -/
def demoDr : ℚ → String := fun _ => "1970-01-01 00:00:00"

/-- A small well-typed response with one sentence. -/
def demoResponse : Json :=
  .obj [("data", .obj [("transcript", .obj
    [("title", .str "Standup"),
     ("id", .str "ABCDEFGHIJKLMNOPQRSTUVWXYZ"),
     ("duration", .num 125),
     ("sentences", .arr [.obj [("text", .str "Hi"),
       ("speaker_name", .str "Alice"), ("start_time", .num 0)]])])])]

/-- A response whose `data.transcript` is present and non-null but empty. -/
def emptyTranscriptResponse : Json :=
  .obj [("data", .obj [("transcript", .obj [])])]

/-- Four well-typed sentences with effective speakers Alice, Alice, Bob,
Alice. -/
def demoFourSentences : Json :=
  .arr [.obj [("speaker_name", .str "Alice"), ("text", .str "hi"), ("start_time", .num 0)],
        .obj [("speaker_name", .str "Alice"), ("text", .str "again"), ("start_time", .num 1)],
        .obj [("speaker_name", .str "Bob"), ("text", .str "yo"), ("start_time", .num 2)],
        .obj [("speaker_name", .str "Alice"), ("text", .str "bye"), ("start_time", .num 3)]]

/-- A sentence whose `speaker_name` is absent and whose `speaker_id` is
present but empty. -/
def emptyIdSentence : Json :=
  .obj [("speaker_id", .str ""), ("text", .str "hi"), ("start_time", .num 0)]

/-- A transcript object carrying a present `date` field equal to 0. -/
def demoDateZero : Json :=
  .obj [("title", .str "T"), ("id", .str "X"), ("duration", .num 5),
        ("date", .num 0)]

/-- A 2xx body with no `errors` field. -/
def demoOkBody : Json :=
  .obj [("data", .obj [("transcript", .null)])]

/-- A 2xx body with a top-level `errors` field. -/
def demoErrBody : Json :=
  .obj [("errors", .arr [.str "object not found"]), ("data", .null)]

/-- A URL embedding a 26-character uppercase alphanumeric run. -/
def demoUrl : String :=
  "https://app.fireflies.ai/view/meeting::ABCDEFGHIJKLMNOPQRSTUVWXYZ"

/-- Twenty-seven consecutive id characters: a maximal run of length 27. -/
def run27 : String :=
  String.mk (List.replicate 27 'A')

/-! ## Arithmetic bridge lemmas: the reducible operations are the field ones -/

theorem ratMul_eq (a b : ℚ) : ratMul a b = a * b := by
  rw [ratMul, Rat.divInt_eq_div]
  push_cast
  rw [← div_mul_div_comm, Rat.num_div_den, Rat.num_div_den]

theorem ratSub_eq (a b : ℚ) : ratSub a b = a - b := by
  rw [ratSub, Rat.divInt_eq_div]
  have ha : ((a.den : ℚ)) ≠ 0 := by exact_mod_cast a.den_nz
  have hb : ((b.den : ℚ)) ≠ 0 := by exact_mod_cast b.den_nz
  push_cast
  conv_rhs => rw [← Rat.num_div_den a, ← Rat.num_div_den b]
  rw [div_sub_div _ _ ha hb]
  ring_nf

theorem rat_mul_own_den (q : ℚ) : q * ((q.den : ℚ)) = ((q.num : ℚ)) := by
  have h : ((q.den : ℚ)) ≠ 0 := by
    exact_mod_cast (Nat.cast_ne_zero (R := ℚ)).2 q.den_nz
  calc q * ((q.den : ℚ)) = ((q.num : ℚ)) / ((q.den : ℚ)) * ((q.den : ℚ)) := by
        rw [Rat.num_div_den]
    _ = ((q.num : ℚ)) := div_mul_cancel₀ _ h

theorem pyDiv_eq (a b : ℚ) : pyDiv a b = a / b := by
  rw [pyDiv, Rat.divInt_eq_div]
  rcases eq_or_ne b 0 with rfl | hbz
  · simp
  · have ha : ((a.den : ℚ)) ≠ 0 := by
      exact_mod_cast (Nat.cast_ne_zero (R := ℚ)).2 a.den_nz
    have hbn : ((b.num : ℚ)) ≠ 0 := by exact_mod_cast Rat.num_ne_zero.2 hbz
    push_cast
    rw [div_eq_div_iff (mul_ne_zero ha hbn) hbz, ← rat_mul_own_den a, ← rat_mul_own_den b]
    ring

theorem ratFloor_eq (q : ℚ) : Rat.floor q = ⌊q⌋ :=
  (Rat.floor_def' q).trans Rat.floor_def.symm

theorem pyInt_intCast (m : ℤ) : pyInt ((m : ℚ)) = m := by
  simp [pyInt, Rat.num_intCast, Rat.den_intCast]

theorem pyInt_eq_floor (q : ℚ) (hq : 0 ≤ q) : pyInt q = ⌊q⌋ := by
  rw [pyInt, Int.tdiv_eq_ediv (Rat.num_nonneg.2 hq) (by positivity), Rat.floor_def]

theorem pyFloorDiv_eq (a b : ℚ) : pyFloorDiv a b = ((⌊a / b⌋ : ℤ) : ℚ) := by
  rw [pyFloorDiv, pyDiv_eq, ratFloor_eq]

theorem pyMod_eq (a b : ℚ) : pyMod a b = a - b * ((⌊a / b⌋ : ℤ) : ℚ) := by
  rw [pyMod, ratSub_eq, ratMul_eq, pyFloorDiv_eq]

theorem pyMod_nonneg (a b : ℚ) (hb : 0 < b) : 0 ≤ pyMod a b := by
  rw [pyMod_eq]
  have h1 : ((⌊a / b⌋ : ℤ) : ℚ) ≤ a / b := Int.floor_le _
  have h2 : b * ((⌊a / b⌋ : ℤ) : ℚ) ≤ b * (a / b) := mul_le_mul_of_nonneg_left h1 hb.le
  have h3 : b * (a / b) = a := by field_simp
  linarith

theorem floor_div_natCast (s : ℚ) (hs : 0 ≤ s) (k : ℕ) :
    ⌊s / ((k : ℕ) : ℚ)⌋ = (((⌊s⌋₊ / k : ℕ)) : ℤ) := by
  have h0 : (0 : ℚ) ≤ s / ((k : ℕ) : ℚ) := div_nonneg hs (by positivity)
  rw [← Int.natCast_floor_eq_floor h0]
  exact_mod_cast Nat.floor_div_nat s k

theorem pyInt_pyFloorDiv_nat (s : ℚ) (hs : 0 ≤ s) (k : ℕ) :
    pyInt (pyFloorDiv s ((k : ℕ) : ℚ)) = (((⌊s⌋₊ / k : ℕ)) : ℤ) := by
  rw [pyFloorDiv_eq, pyInt_intCast, floor_div_natCast s hs k]

theorem intFloor_pyMod (s : ℚ) (hs : 0 ≤ s) (k : ℕ) :
    ⌊pyMod s ((k : ℕ) : ℚ)⌋ = (((⌊s⌋₊ % k : ℕ)) : ℤ) := by
  rw [pyMod_eq, floor_div_natCast s hs k]
  have h1 : ((k : ℕ) : ℚ) * ((((⌊s⌋₊ / k : ℕ)) : ℤ) : ℚ)
      = (((k * (⌊s⌋₊ / k) : ℕ) : ℤ) : ℚ) := by push_cast; ring
  rw [h1, Int.floor_sub_int, ← Int.natCast_floor_eq_floor hs]
  have hdm := Nat.div_add_mod ⌊s⌋₊ k
  omega

theorem natFloor_pyMod (s : ℚ) (hs : 0 ≤ s) (k : ℕ) (hk : 0 < k) :
    ⌊pyMod s ((k : ℕ) : ℚ)⌋₊ = ⌊s⌋₊ % k := by
  have h := intFloor_pyMod s hs k
  have h2 : (0 : ℚ) ≤ pyMod s ((k : ℕ) : ℚ) := pyMod_nonneg _ _ (by exact_mod_cast hk)
  have h3 := Int.natCast_floor_eq_floor h2
  omega

theorem pyInt_pyMod_nat (s : ℚ) (hs : 0 ≤ s) (k : ℕ) (hk : 0 < k) :
    pyInt (pyMod s ((k : ℕ) : ℚ)) = (((⌊s⌋₊ % k : ℕ)) : ℤ) := by
  rw [pyInt_eq_floor _ (pyMod_nonneg _ _ (by exact_mod_cast hk)), intFloor_pyMod s hs k]

theorem toString_intCast_nat (k : ℕ) : toString ((k : ℤ)) = toString k := rfl

theorem pad2_natCast (k : ℕ) : pad2 ((k : ℤ)) = pad2Nat k := by
  unfold pad2 pad2Nat
  split_ifs with h1 h2 h3
  · rw [toString_intCast_nat]
  · omega
  · omega
  · rw [toString_intCast_nat]

/-! ## Duration and timestamp formatting (claims C4 and C5) -/

theorem format_duration_eq_spec (s : ℚ) (hs : 0 ≤ s) :
    TranscriptFormatter.format_duration s = durationSpec ⌊s⌋₊ := by
  unfold TranscriptFormatter.format_duration durationSpec
  have hmod : (0 : ℚ) ≤ pyMod s (((3600 : ℕ)) : ℚ) :=
    pyMod_nonneg _ _ (by norm_num)
  rw [show ((3600 : ℚ)) = (((3600 : ℕ)) : ℚ) from by norm_num,
      show ((60 : ℚ)) = (((60 : ℕ)) : ℚ) from by norm_num,
      pyInt_pyFloorDiv_nat s hs 3600,
      pyInt_pyFloorDiv_nat _ hmod 60,
      pyInt_pyMod_nat s hs 60 (by norm_num),
      natFloor_pyMod s hs 3600 (by norm_num)]
  simp only [Int.natCast_pos, toString_intCast_nat]

theorem format_timestamp_eq_spec (s : ℚ) (hs : 0 ≤ s) :
    TranscriptFormatter.format_timestamp s = timestampSpec ⌊s⌋₊ := by
  unfold TranscriptFormatter.format_timestamp timestampSpec
  rw [show ((60 : ℚ)) = (((60 : ℕ)) : ℚ) from by norm_num,
      pyInt_pyFloorDiv_nat s hs 60, pyInt_pyMod_nat s hs 60 (by norm_num)]
  simp only [pad2_natCast]

/-- C4: for every non-negative duration in seconds, `format_duration`
computes whole hours, minutes and seconds by truncation and renders
`"Nh Mm Ss"` when hours are positive, `"Mm Ss"` when only minutes are,
else `"Ss"`; in particular 45 ↦ "45s", 125 ↦ "2m 5s", 3725 ↦ "1h 2m 5s"
and 3600 ↦ "1h 0m 0s". -/
theorem c4_duration_formatting :
    (∀ s : ℚ, 0 ≤ s → TranscriptFormatter.format_duration s = durationSpec ⌊s⌋₊)
    ∧ TranscriptFormatter.format_duration 45 = "45s"
    ∧ TranscriptFormatter.format_duration 125 = "2m 5s"
    ∧ TranscriptFormatter.format_duration 3725 = "1h 2m 5s"
    ∧ TranscriptFormatter.format_duration 3600 = "1h 0m 0s" :=
  ⟨format_duration_eq_spec, by decide, by decide, by decide, by decide⟩

/-- C5: for every non-negative start time, the timestamp is `[MM:SS]` with
`SS = floor(t) mod 60` and `MM = floor(t) / 60` (no hour component, no
wrapping), both zero-padded to two digits; in particular 0 ↦ "[00:00]",
65.9 ↦ "[01:05]" (truncated, not rounded) and 600 ↦ "[10:00]". -/
theorem c5_timestamp_formatting :
    (∀ s : ℚ, 0 ≤ s → TranscriptFormatter.format_timestamp s = timestampSpec ⌊s⌋₊)
    ∧ TranscriptFormatter.format_timestamp 0 = "[00:00]"
    ∧ TranscriptFormatter.format_timestamp (65.9 : ℚ) = "[01:05]"
    ∧ TranscriptFormatter.format_timestamp 600 = "[10:00]" := by
  refine ⟨format_timestamp_eq_spec, by decide, ?_, by decide⟩
  rw [format_timestamp_eq_spec (65.9 : ℚ) (by norm_num),
      show ⌊(65.9 : ℚ)⌋₊ = 65 from by rw [Nat.floor_eq_iff (by norm_num)]; norm_num]
  decide

/-! ## Claim C2: speaker grouping in the transcript block -/

theorem effSpeaker_isStr (s : Json) (h : WFSentence s = true) :
    ∃ nm, TranscriptFormatter.effSpeaker s = .str nm := by
  unfold WFSentence at h
  simp only [Bool.and_eq_true] at h
  obtain ⟨⟨⟨⟨hobj, htext⟩, hname⟩, hid⟩, hstart⟩ := h
  unfold optFieldIs at hname hid
  unfold TranscriptFormatter.effSpeaker
  by_cases ht : (Json.getD s "speaker_name" .null).truthy = true
  · rw [if_pos ht]
    rw [Json.getD] at ht ⊢
    cases hn : s.get? "speaker_name" with
    | none => rw [hn] at ht; simp [Json.truthy, Option.getD_none] at ht
    | some v =>
      rw [hn] at ht hname
      rw [Option.getD_some] at ht ⊢
      cases v with
      | str nm => exact ⟨nm, rfl⟩
      | null => simp [Json.truthy] at ht
      | bool b => simp [Json.isStr, Json.isNull] at hname
      | num q => simp [Json.isStr, Json.isNull] at hname
      | arr xs => simp [Json.isStr, Json.isNull] at hname
      | obj kvs => simp [Json.isStr, Json.isNull] at hname
  · rw [if_neg ht]
    rw [Json.getD]
    cases hi : s.get? "speaker_id" with
    | none => exact ⟨"Unknown", rfl⟩
    | some w =>
      rw [Option.getD_some]
      rw [hi] at hid
      cases w with
      | str nm => exact ⟨nm, rfl⟩
      | null => simp [Json.isStr] at hid
      | bool b => simp [Json.isStr] at hid
      | num q => simp [Json.isStr] at hid
      | arr xs => simp [Json.isStr] at hid
      | obj kvs => simp [Json.isStr] at hid

theorem effSpeaker_eq_name (s : Json) (h : WFSentence s = true) :
    TranscriptFormatter.effSpeaker s = .str (effSpeakerName s) := by
  obtain ⟨nm, hnm⟩ := effSpeaker_isStr s h
  rw [effSpeakerName, hnm]
  rfl

theorem sentencesLoop_eq_spec (ss : List Json) :
    ∀ prev : Option String, (∀ s ∈ ss, WFSentence s = true) →
      TranscriptFormatter.sentencesLoop (optJson prev) ss = sentenceStreamSpec prev ss := by
  induction ss with
  | nil => intro prev _; rfl
  | cons s rest ih =>
    intro prev hwf
    have hs : WFSentence s = true := hwf s (by simp)
    have hrest : ∀ t ∈ rest, WFSentence t = true := fun t ht => hwf t (by simp [ht])
    have hnm := effSpeaker_eq_name s hs
    unfold TranscriptFormatter.sentencesLoop sentenceStreamSpec
    rw [hnm]
    cases prev with
    | none =>
      rw [show Json.beq (Json.str (effSpeakerName s)) (optJson none) = false from rfl]
      rw [if_neg (by simp), if_neg (by simp)]
      simp only [pyStr, List.cons_append, List.nil_append]
      have := ih (some (effSpeakerName s)) hrest
      rw [show optJson (some (effSpeakerName s)) = Json.str (effSpeakerName s) from rfl] at this
      rw [this]
    | some p =>
      by_cases hp : effSpeakerName s = p
      · subst hp
        rw [show Json.beq (Json.str (effSpeakerName s)) (optJson (some (effSpeakerName s)))
              = (effSpeakerName s == effSpeakerName s) from rfl]
        rw [if_pos (by simp), if_pos rfl]
        simp only [List.cons_append, List.nil_append]
        rw [ih (some (effSpeakerName s)) hrest]
      · rw [show Json.beq (Json.str (effSpeakerName s)) (optJson (some p))
              = (effSpeakerName s == p) from rfl]
        rw [if_neg (by simp [hp]), if_neg (by simp [hp])]
        simp only [pyStr, List.cons_append, List.nil_append]
        have := ih (some (effSpeakerName s)) hrest
        rw [show optJson (some (effSpeakerName s)) = Json.str (effSpeakerName s) from rfl] at this
        rw [this]

/-- C2: in the transcript block a speaker header `--- <speaker> ---`
preceded by a blank line is emitted exactly when the effective speaker
differs from the previous sentence's effective speaker, and always for the
first sentence — the loop refines `sentenceStreamSpec`; in particular four
well-typed sentences with effective speakers Alice, Alice, Bob, Alice yield
exactly the three headers Alice, Bob, Alice in that order, each preceded by
a blank line. -/
theorem c2_speaker_headers :
    (∀ ss : List Json, (∀ s ∈ ss, WFSentence s = true) →
        TranscriptFormatter.sentencesLoop .null ss = sentenceStreamSpec none ss)
    ∧ (∀ s ss, TranscriptFormatter.add_sentences (.arr (s :: ss))
        = [TranscriptFormatter.headerRule, "FULL TRANSCRIPT",
           TranscriptFormatter.headerRule, ""]
          ++ TranscriptFormatter.sentencesLoop .null (s :: ss))
    ∧ (TranscriptFormatter.add_sentences demoFourSentences).filter isSpeakerHeader
        = ["--- Alice ---", "--- Bob ---", "--- Alice ---"]
    ∧ blanksBeforeHeaders (TranscriptFormatter.add_sentences demoFourSentences) = true :=
  ⟨fun ss h => sentencesLoop_eq_spec ss none h, fun _ _ => rfl, by decide, by decide⟩

/-! ## Claim C3: the effective speaker fallback chain -/

theorem effSpeakerName_amended (s : Json) (h : WFSentence s = true) :
    effSpeakerName s = effSpeakerAmended s := by
  unfold WFSentence at h
  simp only [Bool.and_eq_true] at h
  obtain ⟨⟨⟨⟨hobj, htext⟩, hname⟩, hid⟩, hstart⟩ := h
  unfold optFieldIs at hname hid
  unfold effSpeakerName TranscriptFormatter.effSpeaker effSpeakerAmended strField
    idOrUnknownAmended
  cases hn : s.get? "speaker_name" with
  | none =>
    simp only [Json.getD, hn, Option.getD_none]
    rw [if_neg (by simp [Json.truthy])]
    cases hi : s.get? "speaker_id" with
    | none => rfl
    | some w => rfl
  | some v =>
    rw [hn] at hname
    cases v with
    | str nm =>
      simp only [Json.getD, hn, Option.getD_some]
      by_cases hne : nm = ""
      · subst hne
        rw [if_neg (by simp [Json.truthy]), if_pos (show (("" == "") = true) from rfl)]
        cases hi : s.get? "speaker_id" with
        | none => rfl
        | some w => rfl
      · rw [if_pos (by simp [Json.truthy, hne]), if_neg (by simp [hne])]
        rfl
    | null =>
      simp only [Json.getD, hn, Option.getD_some]
      rw [if_neg (by simp [Json.truthy])]
      cases hi : s.get? "speaker_id" with
      | none => rfl
      | some w => rfl
    | bool b => simp [Json.isStr, Json.isNull] at hname
    | num q => simp [Json.isStr, Json.isNull] at hname
    | arr xs => simp [Json.isStr, Json.isNull] at hname
    | obj kvs => simp [Json.isStr, Json.isNull] at hname

/-- C3 (amended): the effective speaker is `speaker_name` when present and
non-empty; otherwise it is `speaker_id`'s value whenever that field is
present — even when empty, in which case the effective speaker is the empty
string — and `"Unknown"` only when `speaker_id` is absent. -/
theorem c3_effective_speaker_fallback :
    (∀ s : Json, WFSentence s = true → effSpeakerName s = effSpeakerAmended s)
    ∧ effSpeakerName emptyIdSentence = ""
    ∧ effSpeakerName (.obj [("speaker_name", .str "Alice")]) = "Alice"
    ∧ effSpeakerName (.obj [("speaker_id", .str "spk0")]) = "spk0"
    ∧ effSpeakerName (.obj [("text", .str "x")]) = "Unknown" :=
  ⟨effSpeakerName_amended, by decide, by decide, by decide, by decide⟩

/-- C3's counterexample: a well-typed sentence with `speaker_name` absent
and `speaker_id` present but empty has effective speaker `""`, not the
`"Unknown"` the claim asserts. -/
theorem c3_counterexample_empty_speaker_id :
    WFSentence emptyIdSentence = true
    ∧ effSpeakerName emptyIdSentence = ""
    ∧ effSpeakerClaimC3 emptyIdSentence = "Unknown"
    ∧ effSpeakerName emptyIdSentence ≠ effSpeakerClaimC3 emptyIdSentence :=
  ⟨by decide, by decide, by decide, by decide⟩

/-! ## Claim C6: action-items rendering in the summary block -/

theorem get?_of_not_truthy (j : Json) (h : j.truthy = false) (k : String) :
    j.get? k = none := by
  cases j with
  | obj kvs =>
    cases kvs with
    | nil => rfl
    | cons p rest => simp [Json.truthy] at h
  | null => rfl
  | bool b => rfl
  | num q => rfl
  | str st => rfl
  | arr xs => rfl

theorem actionSeg_eq_spec (sm : Json) (h : WFSummary sm = true) :
    ((sm.getD "action_items" .null).truthy = true →
      TranscriptFormatter.actionSeg sm = actionItemsSpec (sm.getD "action_items" .null))
    ∧ ((sm.getD "action_items" .null).truthy = false →
      TranscriptFormatter.actionSeg sm = []) := by
  constructor
  · intro htr
    unfold TranscriptFormatter.actionSeg
    rw [if_pos htr]
    unfold actionItemsSpec
    cases hv : sm.get? "action_items" with
    | none =>
      rw [Json.getD, hv, Option.getD_none] at htr
      simp [Json.truthy] at htr
    | some v =>
      have hsm : sm.truthy = true := by
        by_contra hf
        rw [get?_of_not_truthy sm (by simpa using hf) "action_items"] at hv
        exact Option.noConfusion hv
      unfold WFSummary at h
      rw [hsm] at h
      simp only [Bool.not_true, Bool.false_or, Bool.and_eq_true] at h
      obtain ⟨⟨⟨hobj, hov⟩, hkw⟩, hai⟩ := h
      unfold optFieldIs at hai
      rw [hv] at hai
      rw [Json.getD, hv, Option.getD_some] at htr ⊢
      cases v with
      | str st => rfl
      | arr xs => rfl
      | null => simp [Json.truthy] at htr
      | bool b => simp [Json.isStr, Json.isStrArr, Json.isNull] at hai
      | num q => simp [Json.isStr, Json.isStrArr, Json.isNull] at hai
      | obj kvs => simp [Json.isStr, Json.isStrArr, Json.isNull] at hai
  · intro htr
    unfold TranscriptFormatter.actionSeg
    rw [if_neg (by simp [htr])]

/-- C6: when `action_items` is present and non-empty the summary block emits
`--- ACTION ITEMS ---`, then a string value stripped on one line with no
`  - ` prefix, or one `  - ` line per element of a sequence value, then a
blank line; nothing is emitted otherwise. -/
theorem c6_action_items_rendering :
    (∀ sm : Json, WFSummary sm = true →
      ((sm.getD "action_items" .null).truthy = true →
        TranscriptFormatter.actionSeg sm = actionItemsSpec (sm.getD "action_items" .null))
      ∧ ((sm.getD "action_items" .null).truthy = false →
        TranscriptFormatter.actionSeg sm = []))
    ∧ TranscriptFormatter.actionSeg (.obj [("action_items", .str "  do x  ")])
        = ["--- ACTION ITEMS ---", "do x", ""]
    ∧ TranscriptFormatter.actionSeg (.obj [("action_items", .arr [.str "a", .str "b"])])
        = ["--- ACTION ITEMS ---", "  - a", "  - b", ""]
    ∧ TranscriptFormatter.add_summary (.obj [("action_items", .arr [.str "a"])])
        = TranscriptFormatter.overviewSeg (.obj [("action_items", .arr [.str "a"])])
          ++ TranscriptFormatter.keywordsSeg (.obj [("action_items", .arr [.str "a"])])
          ++ TranscriptFormatter.actionSeg (.obj [("action_items", .arr [.str "a"])]) :=
  ⟨actionSeg_eq_spec, by decide, by decide, by decide⟩

/-! ## Claim C7: identifier extraction -/

theorem findRun26_characterization (l : List Char) :
    (∃ i, hasWindowAt l i = true ∧ (∀ j, j < i → hasWindowAt l j = false)
        ∧ findRun26 l = some ((l.drop i).take 26))
    ∨ ((∀ i, hasWindowAt l i = false) ∧ findRun26 l = none) := by
  induction l with
  | nil =>
    right
    refine ⟨fun i => ?_, rfl⟩
    simp [hasWindowAt]
  | cons c rest ih =>
    by_cases hc : (26 ≤ (c :: rest).length && ((c :: rest).take 26).all idChar) = true
    · left
      refine ⟨0, ?_, ?_, ?_⟩
      · simpa [hasWindowAt] using hc
      · intro j hj; omega
      · simp only [findRun26]
        rw [if_pos hc, List.drop_zero]
    · have hc0 : hasWindowAt (c :: rest) 0 = false := by
        simpa [hasWindowAt] using hc
      have hstep : findRun26 (c :: rest) = findRun26 rest := by
        simp only [findRun26]
        rw [if_neg hc]
      rcases ih with ⟨i, hw, hmin, hfind⟩ | ⟨hnone, hfind⟩
      · left
        refine ⟨i + 1, ?_, ?_, ?_⟩
        · simpa [hasWindowAt, List.drop_succ_cons] using hw
        · intro j hj
          cases j with
          | zero => exact hc0
          | succ j2 =>
            have := hmin j2 (by omega)
            simpa [hasWindowAt, List.drop_succ_cons] using this
        · rw [hstep, hfind, List.drop_succ_cons]
      · right
        refine ⟨fun i => ?_, by rw [hstep, hfind]⟩
        cases i with
        | zero => exact hc0
        | succ i2 => simpa [hasWindowAt, List.drop_succ_cons] using hnone i2

/-- C7 (amended): identifier extraction returns the substring at the
leftmost position where 26 consecutive uppercase alphanumeric characters
occur — even inside a longer run — and the input unchanged when no 26
consecutive such characters occur; in particular a 26-character run embedded
in a URL is extracted, an input with no such window passes through
verbatim, and a 27-character run yields its first 26 characters. -/
theorem c7_identifier_extraction :
    (∀ s : String,
      (∃ i, hasWindowAt s.data i = true ∧ (∀ j, j < i → hasWindowAt s.data j = false)
          ∧ extract_transcript_id s = String.mk ((s.data.drop i).take 26))
      ∨ ((∀ i, hasWindowAt s.data i = false) ∧ extract_transcript_id s = s))
    ∧ extract_transcript_id demoUrl = "ABCDEFGHIJKLMNOPQRSTUVWXYZ"
    ∧ extract_transcript_id "hello" = "hello"
    ∧ extract_transcript_id run27 = String.mk (List.replicate 26 'A') := by
  refine ⟨fun s => ?_, by decide, by decide, by decide⟩
  rcases findRun26_characterization s.data with ⟨i, hw, hmin, hfind⟩ | ⟨hnone, hfind⟩
  · left
    exact ⟨i, hw, hmin, by rw [extract_transcript_id, hfind]⟩
  · right
    exact ⟨hnone, by rw [extract_transcript_id, hfind]⟩

/-- C7's counterexample: on 27 consecutive `A`s no maximal run has length
exactly 26 — so the claim as stated demands the input back unchanged — yet
the code returns the first 26 characters, not the input. -/
theorem c7_counterexample_run_of_27 :
    (maximalRuns run27.data).filter (fun r => r.length == 26) = []
    ∧ extractClaimC7 run27 = run27
    ∧ extract_transcript_id run27 ≠ run27 :=
  ⟨by decide, by decide, by decide⟩

/-! ## Claim C9: output file naming -/

theorem mem_pyStripChars (c : Char) (l : List Char) (h : c ∈ pyStripChars l) : c ∈ l := by
  unfold pyStripChars at h
  rw [List.mem_reverse] at h
  have h2 := (List.dropWhile_sublist (l := (l.dropWhile pyIsSpace).reverse) pyIsSpace).subset h
  rw [List.mem_reverse] at h2
  exact (List.dropWhile_sublist (l := l) pyIsSpace).subset h2

theorem sanitize_title_chars (title : String) :
    ∀ c ∈ (sanitize_title title).data, keepChar c = true ∧ c ≠ ' ' := by
  intro c hc
  unfold sanitize_title at hc
  rw [show (String.mk (((pyStripChars (title.data.filter keepChar)).map
      (fun c => if c == ' ' then '_' else c)).take 50)).data
      = ((pyStripChars (title.data.filter keepChar)).map
      (fun c => if c == ' ' then '_' else c)).take 50 from rfl] at hc
  have hc2 := (List.take_sublist 50 _).subset hc
  rw [List.mem_map] at hc2
  obtain ⟨c0, hc0mem, hc0eq⟩ := hc2
  have hkeep : keepChar c0 = true :=
    (List.mem_filter.1 (mem_pyStripChars c0 _ hc0mem)).2
  by_cases hsp : c0 == ' '
  · have : c = '_' := by rw [← hc0eq, if_pos hsp]
    subst this
    exact ⟨by decide, by decide⟩
  · have : c = c0 := by rw [← hc0eq, if_neg hsp]
    subst this
    refine ⟨hkeep, ?_⟩
    intro heq
    exact hsp (by rw [heq]; decide)

theorem sanitize_title_len (title : String) : (sanitize_title title).data.length ≤ 50 := by
  unfold sanitize_title
  rw [show (String.mk (((pyStripChars (title.data.filter keepChar)).map
      (fun c => if c == ' ' then '_' else c)).take 50)).data
      = ((pyStripChars (title.data.filter keepChar)).map
      (fun c => if c == ' ' then '_' else c)).take 50 from rfl]
  exact List.length_take_le 50 _

/-- C9 (amended): the base filename is the sanitized title — characters
outside word characters/whitespace/hyphen removed, whitespace trimmed, each
space character (U+0020 only; other internal whitespace survives) replaced
by an underscore, truncated to 50 characters — followed by an underscore and
the transcript id, and the two output files carry that base name with the
extensions `.json` and `.txt`; the sanitized title keeps only sanctioned
characters and never a space. -/
theorem c9_sanitized_filename :
    (∀ title tid : String, base_filename title tid = sanitizeAmendedC9 title ++ "_" ++ tid)
    ∧ (∀ title tid : String,
        json_filename title tid = (sanitizeAmendedC9 title ++ "_" ++ tid) ++ ".json")
    ∧ (∀ title tid : String,
        txt_filename title tid = (sanitizeAmendedC9 title ++ "_" ++ tid) ++ ".txt")
    ∧ (∀ title : String, (sanitize_title title).data.length ≤ 50)
    ∧ (∀ title : String, ∀ c ∈ (sanitize_title title).data, keepChar c = true ∧ c ≠ ' ')
    ∧ sanitize_title "My Call: rev-2  " = "My_Call_rev-2"
    ∧ base_filename " My Call: rev-2 " "ABC123" = "My_Call_rev-2_ABC123"
    ∧ json_filename " My Call: rev-2 " "ABC123" = "My_Call_rev-2_ABC123.json"
    ∧ txt_filename " My Call: rev-2 " "ABC123" = "My_Call_rev-2_ABC123.txt" :=
  ⟨fun title tid => rfl, fun title tid => rfl, fun title tid => rfl,
   sanitize_title_len, sanitize_title_chars,
   by decide, by decide, by decide, by decide⟩

/-- C9's counterexample: a tab inside the title survives sanitization —
`.replace(" ", "_")` substitutes spaces only — while the claim's
whitespace-wide replacement would map it to an underscore. -/
theorem c9_counterexample_tab_title :
    base_filename "a\tb" "ID" = "a\tb_ID"
    ∧ sanitizeClaimC9 "a\tb" ++ "_" ++ "ID" = "a_b_ID"
    ∧ base_filename "a\tb" "ID" ≠ sanitizeClaimC9 "a\tb" ++ "_" ++ "ID" :=
  ⟨by decide, by decide, by decide⟩

/-! ## Claim C1: the formatter's one validity check -/

theorem format_check (dr : ℚ → String) (j : Json) (_hwf : WFResponse j = true) :
    (TranscriptFormatter.format dr j = .error "Transcript not found in response"
      ↔ (TranscriptFormatter.transcriptOf j).truthy = false)
    ∧ ((TranscriptFormatter.transcriptOf j).truthy = true →
        ∃ text, TranscriptFormatter.format dr j = .ok text) := by
  unfold TranscriptFormatter.format
  cases ht : (TranscriptFormatter.transcriptOf j).truthy
  · rw [if_neg (by simp [ht])]
    exact ⟨⟨fun _ => rfl, fun _ => rfl⟩, fun h => Bool.noConfusion h⟩
  · rw [if_pos (by simp [ht])]
    exact ⟨⟨fun h => Except.noConfusion h, fun h => Bool.noConfusion h⟩, fun _ => ⟨_, rfl⟩⟩

/-- C1 (amended): over well-typed responses, `format` fails — always with
the one message "Transcript not found in response" — exactly when
`data.transcript` is falsy: absent, null, or present but empty (empty
object, empty string, zero, …); whenever `data.transcript` is truthy,
`format` performs no other validity check and returns a string. -/
theorem c1_format_validity_check :
    (∀ (dr : ℚ → String) (j : Json), WFResponse j = true →
      (TranscriptFormatter.format dr j = .error "Transcript not found in response"
        ↔ (TranscriptFormatter.transcriptOf j).truthy = false)
      ∧ ((TranscriptFormatter.transcriptOf j).truthy = true →
          ∃ text, TranscriptFormatter.format dr j = .ok text))
    ∧ WFResponse demoResponse = true
    ∧ (∃ text, TranscriptFormatter.format demoDr demoResponse = .ok text) :=
  ⟨format_check, by decide, ⟨_, rfl⟩⟩

/-- C1's counterexample: `data.transcript` present and non-null (an empty
object) in a well-typed response, yet `format` fails rather than returning
a string — the check is truthiness, not presence/non-nullness. -/
theorem c1_counterexample_empty_transcript :
    (emptyTranscriptResponse.getD "data" (.obj [])).get? "transcript" = some (.obj [])
    ∧ Json.obj [] ≠ Json.null
    ∧ WFResponse emptyTranscriptResponse = true
    ∧ TranscriptFormatter.format demoDr emptyTranscriptResponse
        = .error "Transcript not found in response" :=
  ⟨rfl, fun h => Json.noConfusion h, by decide, rfl⟩

/-! ## Claim C8: the client's handling of a 2xx response -/

theorem get_transcript_2xx (status : ℕ) (body : Json) (h2 : 200 ≤ status)
    (h3 : status < 300) (_hobj : body.isObj = true) :
    (body.get? "errors" = none → get_transcript status body = .ok body)
    ∧ (∀ e, body.get? "errors" = some e →
        get_transcript status body = .error (.graphQL e)) := by
  unfold get_transcript
  rw [if_neg (by omega)]
  constructor
  · intro hn
    rw [if_neg (by simp [Json.hasKey, hn])]
  · intro e he
    rw [if_pos (by simp [Json.hasKey, he]), Json.getD, he, Option.getD_some]

/-- C8: on a 2xx response the client fails with a GraphQL error carrying the
`errors` value exactly when the decoded JSON object has a top-level `errors`
field, and otherwise returns the decoded body unmodified, nesting intact. -/
theorem c8_graphql_error_iff_errors_key :
    (∀ (status : ℕ) (body : Json), 200 ≤ status → status < 300 → body.isObj = true →
      (body.get? "errors" = none → get_transcript status body = .ok body)
      ∧ (∀ e, body.get? "errors" = some e →
          get_transcript status body = .error (.graphQL e)))
    ∧ get_transcript 200 demoOkBody = .ok demoOkBody
    ∧ get_transcript 200 demoErrBody
        = .error (.graphQL (.arr [.str "object not found"])) :=
  ⟨get_transcript_2xx, rfl, rfl⟩

/-! ## Claim C10: a present-but-zero date timestamp -/

theorem lookupPairs_filter_ne (kvs : List (String × Json)) (k k2 : String) (h : k2 ≠ k) :
    lookupPairs (kvs.filter (fun p => p.1 != k)) k2 = lookupPairs kvs k2 := by
  induction kvs with
  | nil => rfl
  | cons p rest ih =>
    obtain ⟨pk, pv⟩ := p
    by_cases hpk : pk = k
    · subst hpk
      rw [List.filter_cons_of_neg (by simp)]
      rw [show lookupPairs ((pk, pv) :: rest) k2
            = if pk == k2 then some pv else lookupPairs rest k2 from rfl]
      rw [if_neg (by simp; exact fun e => h (e.symm))]
      exact ih
    · rw [List.filter_cons_of_pos (by simp [hpk])]
      rw [show lookupPairs ((pk, pv) :: rest.filter (fun p => p.1 != k)) k2
            = if pk == k2 then some pv else lookupPairs (rest.filter (fun p => p.1 != k)) k2
          from rfl,
          show lookupPairs ((pk, pv) :: rest) k2
            = if pk == k2 then some pv else lookupPairs rest k2 from rfl]
      by_cases hk2 : (pk == k2) = true
      · rw [if_pos hk2, if_pos hk2]
      · rw [if_neg hk2, if_neg hk2]
        exact ih

theorem lookupPairs_filter_self (kvs : List (String × Json)) (k : String) :
    lookupPairs (kvs.filter (fun p => p.1 != k)) k = none := by
  induction kvs with
  | nil => rfl
  | cons p rest ih =>
    obtain ⟨pk, pv⟩ := p
    by_cases hpk : pk = k
    · subst hpk
      rw [List.filter_cons_of_neg (by simp)]
      exact ih
    · rw [List.filter_cons_of_pos (by simp [hpk])]
      rw [show lookupPairs ((pk, pv) :: rest.filter (fun p => p.1 != k)) k
            = if pk == k then some pv else lookupPairs (rest.filter (fun p => p.1 != k)) k
          from rfl]
      rw [if_neg (by simp [hpk])]
      exact ih

theorem get?_eraseKey_ne (j : Json) (k k2 : String) (h : k2 ≠ k) :
    (j.eraseKey k).get? k2 = j.get? k2 := by
  cases j with
  | obj kvs => exact lookupPairs_filter_ne kvs k k2 h
  | null => rfl
  | bool b => rfl
  | num q => rfl
  | str st => rfl
  | arr xs => rfl

theorem get?_eraseKey_self (j : Json) (k : String) :
    (j.eraseKey k).get? k = none := by
  cases j with
  | obj kvs => exact lookupPairs_filter_self kvs k
  | null => rfl
  | bool b => rfl
  | num q => rfl
  | str st => rfl
  | arr xs => rfl

theorem add_header_date_zero (dr : ℚ → String) (t : Json)
    (h : t.get? "date" = some (.num 0)) :
    TranscriptFormatter.add_header dr t
      = TranscriptFormatter.add_header dr (t.eraseKey "date") := by
  unfold TranscriptFormatter.add_header
  have h3 : ∀ (k2 : String) (d : Json), k2 ≠ "date" →
      (t.eraseKey "date").getD k2 d = t.getD k2 d := fun k2 d hk => by
    rw [Json.getD, Json.getD, get?_eraseKey_ne _ _ _ hk]
  have h1 : t.getD "date" .null = .num 0 := by
    rw [Json.getD, h, Option.getD_some]
  have h2 : (t.eraseKey "date").getD "date" .null = .null := by
    rw [Json.getD, get?_eraseKey_self, Option.getD_none]
  rw [h1, h2, h3 "title" _ (by decide), h3 "id" _ (by decide),
      h3 "duration" _ (by decide), h3 "participants" _ (by decide)]
  rw [show (Json.num 0).truthy = false from by decide,
      show (Json.null).truthy = false from rfl]
  simp

/-- C10: a header whose transcript carries a present `date` field equal to 0
is rendered exactly as if the field were absent — the guard is a truthiness
check on the numeric value, not a presence check — so no DATE line appears. -/
theorem c10_date_zero_no_date_line :
    (∀ (dr : ℚ → String) (t : Json), t.get? "date" = some (.num 0) →
      TranscriptFormatter.add_header dr t
        = TranscriptFormatter.add_header dr (t.eraseKey "date"))
    ∧ TranscriptFormatter.add_header demoDr demoDateZero
        = TranscriptFormatter.add_header demoDr (demoDateZero.eraseKey "date")
    ∧ (demoDateZero.eraseKey "date").get? "date" = none
    ∧ demoDateZero.get? "date" = some (.num 0) :=
  ⟨add_header_date_zero, by decide, rfl, rfl⟩
